import Mathlib

/-!
Verification of `src/transmitter/features.h` (repository LoRa-Net).

The source is a single C++ function:

  inline void extract_features(float* out) {
    for (int i = 0; i < 10; i++) {
      float energy = random(1, 1000);
      out[i] = logf(energy + 1e-6f);
    }
  }

Embedding choices:
* The Arduino process-wide pseudo-random generator is modelled as a
  `RandomSource`: the stream `raw` of successive outputs of the underlying
  `random()` call together with the count `pos` of outputs already consumed.
  The two-argument Arduino `random(howsmall, howbig)` is modelled faithfully
  to its library definition: `howsmall + random() % (howbig - howsmall)`
  (returning `howsmall` when the range is empty and `0` from the
  single-argument form when its bound is `0`).
* The caller-owned buffer `float* out` is modelled as a total map `ℕ → ℝ`
  so that both the written slots and the untouched slots are observable.
* Single-precision floating-point arithmetic is idealised as exact real
  arithmetic and `logf` as `Real.log`; decimal literals such as `1e-6` and
  `500.000001` denote the corresponding exact rationals in `ℝ`.
-/

namespace LoRaNet

/-- State of the Arduino process-wide pseudo-random generator: `raw n` is the
`(n+1)`-th output of the underlying `random()` call, and `pos` is how many
outputs have already been consumed. -/
structure RandomSource where
  raw : ℕ → ℕ
  pos : ℕ

/-- Consume one output of the underlying generator `random()`. -/
def RandomSource.next (s : RandomSource) : ℕ × RandomSource :=
  (s.raw s.pos, ⟨s.raw, s.pos + 1⟩)

/-- Arduino `random(howbig)`: `random() % howbig`, and `0` when `howbig = 0`. -/
def randomBound (howbig : ℕ) (s : RandomSource) : ℕ × RandomSource :=
  if howbig = 0 then (0, s)
  else
    let p := s.next
    (p.1 % howbig, p.2)

/-- Arduino `random(howsmall, howbig)`: `howsmall + random(howbig - howsmall)`,
and `howsmall` when the range is empty. -/
def random (howsmall howbig : ℕ) (s : RandomSource) : ℕ × RandomSource :=
  if howbig ≤ howsmall then (howsmall, s)
  else
    let p := randomBound (howbig - howsmall) s
    (howsmall + p.1, p.2)

/-- One iteration of the loop body of `extract_features` at index `i`:
`float energy = random(1, 1000); out[i] = logf(energy + 1e-6f);`. -/
noncomputable def extractStep (acc : (ℕ → ℝ) × RandomSource) (i : ℕ) :
    (ℕ → ℝ) × RandomSource :=
  let p := random 1 1000 acc.2
  (Function.update acc.1 i (Real.log ((p.1 : ℝ) + 1e-6)), p.2)

/-- `extract_features` from `src/transmitter/features.h`: run the loop body
for `i = 0, 1, ..., 9` on the caller's buffer `out`, threading the
process-wide random generator state through the ten iterations. -/
noncomputable def extract_features (out : ℕ → ℝ) (s : RandomSource) :
    (ℕ → ℝ) × RandomSource :=
  (List.range 10).foldl extractStep (out, s)

/-- The value returned by the `(k+1)`-th call to `random(1, 1000)` made from
state `s`: `1 + raw % 999` by the Arduino library definition. -/
def energyAt (s : RandomSource) (k : ℕ) : ℕ :=
  1 + s.raw (s.pos + k) % 999

/-- The list of the first `n` values that successive calls to
`random(1, 1000)` yield from state `s`. -/
def draws (s : RandomSource) (n : ℕ) : List ℕ :=
  (List.range n).map (energyAt s)

theorem random_one_thousand (s : RandomSource) :
    random 1 1000 s = (energyAt s 0, ⟨s.raw, s.pos + 1⟩) := by
  simp [random, randomBound, RandomSource.next, energyAt]

theorem extractStep_eq (out : ℕ → ℝ) (s : RandomSource) (i : ℕ) :
    extractStep (out, s) i =
      (Function.update out i (Real.log ((energyAt s 0 : ℝ) + 1e-6)),
        ⟨s.raw, s.pos + 1⟩) := by
  simp [extractStep, random_one_thousand]

theorem energyAt_shift (s : RandomSource) (k : ℕ) :
    energyAt ⟨s.raw, s.pos + 1⟩ k = energyAt s (k + 1) := by
  have h : s.pos + 1 + k = s.pos + (k + 1) := by omega
  simp [energyAt, h]

theorem foldl_extractStep_snd (L : List ℕ) (out : ℕ → ℝ) (s : RandomSource) :
    (L.foldl extractStep (out, s)).2 = ⟨s.raw, s.pos + L.length⟩ := by
  induction L generalizing out s with
  | nil => simp
  | cons i L ih =>
    rw [List.foldl_cons, extractStep_eq, ih]
    simp [Nat.add_assoc, Nat.add_comm 1 L.length]

theorem foldl_extractStep_not_mem (L : List ℕ) (out : ℕ → ℝ) (s : RandomSource)
    (j : ℕ) (hj : j ∉ L) : (L.foldl extractStep (out, s)).1 j = out j := by
  induction L generalizing out s with
  | nil => rfl
  | cons i L ih =>
    have hji : j ≠ i := fun h => hj (by rw [h]; exact List.mem_cons_self i L)
    rw [List.foldl_cons, extractStep_eq,
      ih _ _ (fun h => hj (List.mem_cons_of_mem i h))]
    exact Function.update_noteq hji _ _

theorem foldl_extractStep_get (L : List ℕ) (hL : L.Nodup) (k : ℕ)
    (hk : k < L.length) (out : ℕ → ℝ) (s : RandomSource) :
    (L.foldl extractStep (out, s)).1 (L.get ⟨k, hk⟩) =
      Real.log ((energyAt s k : ℝ) + 1e-6) := by
  induction L generalizing k out s with
  | nil => exact absurd hk (Nat.not_lt_zero k)
  | cons i L ih =>
    rw [List.foldl_cons, extractStep_eq]
    cases k with
    | zero =>
      have hi : i ∉ L := (List.nodup_cons.mp hL).1
      show (L.foldl extractStep _).1 i = _
      rw [foldl_extractStep_not_mem L _ _ i hi, Function.update_same]
    | succ k =>
      have hL' : L.Nodup := (List.nodup_cons.mp hL).2
      have hk' : k < L.length := Nat.lt_of_succ_lt_succ hk
      show (L.foldl extractStep _).1 (L.get ⟨k, hk'⟩) = _
      rw [ih hL' k hk', energyAt_shift]

theorem extract_features_val (out : ℕ → ℝ) (s : RandomSource) (i : ℕ)
    (hi : i < 10) :
    (extract_features out s).1 i = Real.log ((energyAt s i : ℝ) + 1e-6) := by
  have h := foldl_extractStep_get (List.range 10) (List.nodup_range 10) i
    (by simpa using hi) out s
  simpa using h

theorem extract_features_frame (out : ℕ → ℝ) (s : RandomSource) (j : ℕ)
    (hj : 10 ≤ j) : (extract_features out s).1 j = out j := by
  refine foldl_extractStep_not_mem _ _ _ j ?_
  simp only [List.mem_range]
  omega

theorem extract_features_state (out : ℕ → ℝ) (s : RandomSource) :
    (extract_features out s).2 = ⟨s.raw, s.pos + 10⟩ := by
  simpa using foldl_extractStep_snd (List.range 10) out s

theorem energyAt_ge_one (s : RandomSource) (k : ℕ) : 1 ≤ energyAt s k :=
  Nat.le_add_right 1 _

theorem energyAt_le (s : RandomSource) (k : ℕ) : energyAt s k ≤ 999 := by
  have h := Nat.mod_lt (s.raw (s.pos + k)) (show 0 < 999 by norm_num)
  simp only [energyAt]
  omega

theorem log_energy_lower (e : ℕ) (h1 : 1 ≤ e) :
    Real.log (1 + 1e-6) ≤ Real.log ((e : ℝ) + 1e-6) := by
  apply Real.log_le_log (by norm_num)
  have : (1 : ℝ) ≤ (e : ℝ) := by exact_mod_cast h1
  linarith

theorem log_energy_upper (e : ℕ) (h2 : e ≤ 999) :
    Real.log ((e : ℝ) + 1e-6) ≤ Real.log (999 + 1e-6) := by
  apply Real.log_le_log
  · positivity
  · have : (e : ℝ) ≤ 999 := by exact_mod_cast h2
    linarith

/-- Concrete buffer used by witnesses: every slot initially `0`. -/
noncomputable def out0 : ℕ → ℝ := fun _ => 0

/-- Concrete random-source state used by witnesses: the underlying
generator always outputs `0`, so every `random(1, 1000)` draw is `1`. -/
def s0 : RandomSource := ⟨fun _ => 0, 0⟩

/-- C1: every value written by `extract_features` at an index `i < 10` equals
`ln(e + 1e-6)` for some integer `e` with `1 ≤ e < 1000`, and hence lies in the
closed range `[ln(1 + 1e-6), ln(999 + 1e-6)]`. -/
theorem C1_range (out : ℕ → ℝ) (s : RandomSource) (i : ℕ) (hi : i < 10) :
    ∃ e : ℕ, 1 ≤ e ∧ e < 1000 ∧
      (extract_features out s).1 i = Real.log ((e : ℝ) + 1e-6) ∧
      Real.log (1 + 1e-6) ≤ (extract_features out s).1 i ∧
      (extract_features out s).1 i ≤ Real.log (999 + 1e-6) := by
  refine ⟨energyAt s i, energyAt_ge_one s i,
    Nat.lt_of_le_of_lt (energyAt_le s i) (by norm_num),
    extract_features_val out s i hi, ?_, ?_⟩
  · rw [extract_features_val out s i hi]
    exact log_energy_lower _ (energyAt_ge_one s i)
  · rw [extract_features_val out s i hi]
    exact log_energy_upper _ (energyAt_le s i)

/-- C1 witness: the range property instantiated at index `0` with the all-zero
buffer and the all-zero random stream. -/
theorem C1_range_witness :
    (0 : ℕ) < 10 ∧
      ∃ e : ℕ, 1 ≤ e ∧ e < 1000 ∧
        (extract_features out0 s0).1 0 = Real.log ((e : ℝ) + 1e-6) ∧
        Real.log (1 + 1e-6) ≤ (extract_features out0 s0).1 0 ∧
        (extract_features out0 s0).1 0 ≤ Real.log (999 + 1e-6) :=
  ⟨by norm_num, C1_range out0 s0 0 (by norm_num)⟩

/-- C2: `extract_features` writes exactly the slots `out[0]` through `out[9]`:
each index `j < 10` receives the log-transformed `(j+1)`-th draw, and every
index `j ≥ 10` keeps the buffer's original value. -/
theorem C2_exactly_ten (out : ℕ → ℝ) (s : RandomSource) (j : ℕ) :
    (j < 10 →
        (extract_features out s).1 j = Real.log ((energyAt s j : ℝ) + 1e-6)) ∧
      (10 ≤ j → (extract_features out s).1 j = out j) :=
  ⟨fun hj => extract_features_val out s j hj,
    fun hj => extract_features_frame out s j hj⟩

/-- C2 witness: at index `5` the written value is the log-transformed sixth
draw, and at index `12` the all-zero buffer is unchanged. -/
theorem C2_exactly_ten_witness :
    (extract_features out0 s0).1 5 = Real.log ((energyAt s0 5 : ℝ) + 1e-6) ∧
      (extract_features out0 s0).1 12 = out0 12 :=
  ⟨(C2_exactly_ten out0 s0 5).1 (by norm_num),
    (C2_exactly_ten out0 s0 12).2 (by norm_num)⟩

/-- C4: `extract_features` is deterministic in the random source: two calls
starting from the same generator state (same raw stream, same position)
write element-for-element identical values, whatever the initial buffers. -/
theorem C4_deterministic (out₁ out₂ : ℕ → ℝ) (s₁ s₂ : RandomSource)
    (hraw : s₁.raw = s₂.raw) (hpos : s₁.pos = s₂.pos) (i : ℕ) (hi : i < 10) :
    (extract_features out₁ s₁).1 i = (extract_features out₂ s₂).1 i := by
  rw [extract_features_val out₁ s₁ i hi, extract_features_val out₂ s₂ i hi]
  simp [energyAt, hraw, hpos]

/-- C4 witness: determinism instantiated at index `0` for two calls from the
all-zero generator state on different concrete buffers. -/
theorem C4_deterministic_witness :
    (extract_features out0 s0).1 0 = (extract_features (fun _ => 7) s0).1 0 :=
  C4_deterministic out0 (fun _ => 7) s0 s0 rfl rfl 0 (by norm_num)

/-- C5: the only effects of a call are that the buffer's first 10 slots are
overwritten and that 10 draws are consumed from the random source: slots at
indices `≥ 10` are unchanged, the raw stream is unchanged, and the consumed
position advances by exactly 10. -/
theorem C5_frame (out : ℕ → ℝ) (s : RandomSource) :
    (∀ j, 10 ≤ j → (extract_features out s).1 j = out j) ∧
      (extract_features out s).2.raw = s.raw ∧
      (extract_features out s).2.pos = s.pos + 10 := by
  refine ⟨fun j hj => extract_features_frame out s j hj, ?_, ?_⟩
  · rw [extract_features_state out s]
  · rw [extract_features_state out s]

/-- C5 witness: the frame property instantiated at the all-zero buffer and
the all-zero generator state, with slot `11` checked explicitly. -/
theorem C5_frame_witness :
    (extract_features out0 s0).1 11 = out0 11 ∧
      (extract_features out0 s0).2.raw = s0.raw ∧
      (extract_features out0 s0).2.pos = s0.pos + 10 :=
  ⟨(C5_frame out0 s0).1 11 (by norm_num), (C5_frame out0 s0).2.1,
    (C5_frame out0 s0).2.2⟩

/-- C6: no written element is a `NaN` or infinity: for every index `i < 10`
the written value is `ln(e + 1e-6)` for a draw `e` with `1 ≤ e < 1000`, the
logarithm's argument `e + 1e-6` is strictly positive, and the value itself is
bounded in magnitude by the finite number `ln(999 + 1e-6)`. (In this
embedding floats are idealised as reals, so finiteness is expressed as the
explicit bound together with the positivity of the argument.) -/
theorem C6_finite (out : ℕ → ℝ) (s : RandomSource) (i : ℕ) (hi : i < 10) :
    ∃ e : ℕ, 1 ≤ e ∧ e < 1000 ∧ (0 : ℝ) < (e : ℝ) + 1e-6 ∧
      (extract_features out s).1 i = Real.log ((e : ℝ) + 1e-6) ∧
      |(extract_features out s).1 i| ≤ Real.log (999 + 1e-6) := by
  refine ⟨energyAt s i, energyAt_ge_one s i,
    Nat.lt_of_le_of_lt (energyAt_le s i) (by norm_num), ?_,
    extract_features_val out s i hi, ?_⟩
  · positivity
  · rw [extract_features_val out s i hi]
    have hlo : (0 : ℝ) ≤ Real.log ((energyAt s i : ℝ) + 1e-6) := by
      refine le_trans ?_ (log_energy_lower _ (energyAt_ge_one s i))
      exact le_of_lt (Real.log_pos (by norm_num))
    rw [abs_of_nonneg hlo]
    exact log_energy_upper _ (energyAt_le s i)

/-- C6 witness: the no-NaN/no-infinity property instantiated at index `0`
with the all-zero buffer and the all-zero random stream. -/
theorem C6_finite_witness :
    (0 : ℕ) < 10 ∧
      ∃ e : ℕ, 1 ≤ e ∧ e < 1000 ∧ (0 : ℝ) < (e : ℝ) + 1e-6 ∧
        (extract_features out0 s0).1 0 = Real.log ((e : ℝ) + 1e-6) ∧
        |(extract_features out0 s0).1 0| ≤ Real.log (999 + 1e-6) :=
  ⟨by norm_num, C6_finite out0 s0 0 (by norm_num)⟩

/-- C7: no state leaks between consecutive calls: for every generator state,
the second of two back-to-back calls again writes each of its first 10 slots
a value in `[ln(1 + 1e-6), ln(999 + 1e-6)]` and leaves every slot at index
`≥ 10` exactly as the first call left it. -/
theorem C7_no_leak (out : ℕ → ℝ) (s : RandomSource) (i : ℕ) (hi : i < 10) :
    (Real.log (1 + 1e-6) ≤
        (extract_features (extract_features out s).1
          (extract_features out s).2).1 i ∧
      (extract_features (extract_features out s).1
          (extract_features out s).2).1 i ≤ Real.log (999 + 1e-6)) ∧
      ∀ j, 10 ≤ j →
        (extract_features (extract_features out s).1
            (extract_features out s).2).1 j = (extract_features out s).1 j := by
  refine ⟨?_, fun j hj => extract_features_frame _ _ j hj⟩
  constructor
  · rw [extract_features_val _ _ i hi]
    exact log_energy_lower _ (energyAt_ge_one _ i)
  · rw [extract_features_val _ _ i hi]
    exact log_energy_upper _ (energyAt_le _ i)

/-- C7 witness: the second-call property instantiated at index `0` with the
all-zero buffer and the all-zero random stream. -/
theorem C7_no_leak_witness :
    (Real.log (1 + 1e-6) ≤
        (extract_features (extract_features out0 s0).1
          (extract_features out0 s0).2).1 0 ∧
      (extract_features (extract_features out0 s0).1
          (extract_features out0 s0).2).1 0 ≤ Real.log (999 + 1e-6)) ∧
      ∀ j, 10 ≤ j →
        (extract_features (extract_features out0 s0).1
            (extract_features out0 s0).2).1 j = (extract_features out0 s0).1 j :=
  C7_no_leak out0 s0 0 (by norm_num)

/-- C8: every call terminates as a bounded computation: `extract_features` is
by definition the fold of the loop body over the ten indices `0, ..., 9`
(a loop of exactly 10 iterations), and for every state of the random source
it consumes exactly 10 draws and returns. -/
theorem C8_terminates (out : ℕ → ℝ) (s : RandomSource) :
    extract_features out s = (List.range 10).foldl extractStep (out, s) ∧
      (List.range 10).length = 10 ∧
      (extract_features out s).2 = ⟨s.raw, s.pos + 10⟩ :=
  ⟨rfl, by simp, extract_features_state out s⟩

/-- C9: the output is independent of the buffer's initial contents: for any
two initial buffers and the same random-source state, every slot `i < 10`
receives the same value (the function never reads from `out`). -/
theorem C9_init_independent (out₁ out₂ : ℕ → ℝ) (s : RandomSource) (i : ℕ)
    (hi : i < 10) :
    (extract_features out₁ s).1 i = (extract_features out₂ s).1 i := by
  rw [extract_features_val out₁ s i hi, extract_features_val out₂ s i hi]

/-- C9 witness: initial-contents independence instantiated at index `9` for
the all-zero buffer versus a constant-one buffer. -/
theorem C9_init_independent_witness :
    (extract_features out0 s0).1 9 = (extract_features (fun _ => 1) s0).1 9 :=
  C9_init_independent out0 (fun _ => 1) s0 9 (by norm_num)

/-- C10: the random source is consumed exactly 10 times per call, in
ascending index order: the consumed position advances by exactly 10, and the
slot at each index `i < 10` is computed from the `(i+1)`-th draw of the call
(the raw output at stream position `pos + i`, mapped through the Arduino
`random(1, 1000)` reduction `1 + raw % 999`). -/
theorem C10_draw_order (out : ℕ → ℝ) (s : RandomSource) :
    (extract_features out s).2.pos = s.pos + 10 ∧
      ∀ i, i < 10 →
        (extract_features out s).1 i =
          Real.log ((1 + s.raw (s.pos + i) % 999 : ℕ) + (1e-6 : ℝ)) := by
  refine ⟨by rw [extract_features_state out s], fun i hi => ?_⟩
  rw [extract_features_val out s i hi]
  rfl

/-- C10 witness: draw-order property instantiated with the all-zero buffer
and the all-zero random stream, with index `3` checked explicitly. -/
theorem C10_draw_order_witness :
    (extract_features out0 s0).2.pos = s0.pos + 10 ∧
      (extract_features out0 s0).1 3 =
        Real.log ((1 + s0.raw (s0.pos + 3) % 999 : ℕ) + (1e-6 : ℝ)) :=
  ⟨(C10_draw_order out0 s0).1, (C10_draw_order out0 s0).2 3 (by norm_num)⟩

/-- C3 counterexample: the scenario of the claim is impossible. The seventh
value of the required draw sequence is `1000`, but `random(1, 1000)` returns
`1 + raw % 999 ≤ 999` for every state of the random source, so no seeding
makes the successive draws equal to the claimed sequence. -/
theorem C3_counterexample :
    ¬ ∃ s : RandomSource,
        draws s 10 = [500, 1, 999, 250, 750, 1, 1000, 333, 667, 999] := by
  rintro ⟨s, h⟩
  have hr : List.range 10 = [0, 1, 2, 3, 4, 5, 6, 7, 8, 9] := rfl
  rw [draws, hr] at h
  simp only [List.map_cons, List.map_nil, List.cons.injEq, and_true] at h
  have h6 : energyAt s 6 = 1000 := h.2.2.2.2.2.2.1
  have hm := Nat.mod_lt (s.raw (s.pos + 6)) (show 0 < 999 by norm_num)
  simp only [energyAt] at h6
  omega

/-- C3 (amended): the claimed draw sequence is attainable only once its
seventh value `1000` (outside the range of `random(1, 1000)`) is replaced by
an attainable value; with `999` there, the claim holds: if the successive
draws are `[500, 1, 999, 250, 750, 1, 999, 333, 667, 999]`, then each slot
`i < 10` holds the corresponding `ln(e + 0.000001)` within tolerance
`1e-5`. -/
theorem C3_seeded_sequence (out : ℕ → ℝ) (s : RandomSource)
    (h : draws s 10 = [500, 1, 999, 250, 750, 1, 999, 333, 667, 999])
    (i : ℕ) (hi : i < 10) :
    |(extract_features out s).1 i -
        [Real.log 500.000001, Real.log 1.000001, Real.log 999.000001,
          Real.log 250.000001, Real.log 750.000001, Real.log 1.000001,
          Real.log 999.000001, Real.log 333.000001, Real.log 667.000001,
          Real.log 999.000001].getD i 0| ≤ 1e-5 := by
  have hr : List.range 10 = [0, 1, 2, 3, 4, 5, 6, 7, 8, 9] := rfl
  rw [draws, hr] at h
  simp only [List.map_cons, List.map_nil, List.cons.injEq, and_true] at h
  obtain ⟨h0, h1, h2, h3, h4, h5, h6, h7, h8, h9⟩ := h
  interval_cases i <;>
    simp only [List.getD, List.getElem?_cons_zero, List.getElem?_cons_succ,
      Option.getD_some] <;>
    rw [extract_features_val out s _ (by norm_num)]
  · rw [h0, show ((500 : ℕ) : ℝ) + 1e-6 = 500.000001 by norm_num]
    simp
    norm_num
  · rw [h1, show ((1 : ℕ) : ℝ) + 1e-6 = 1.000001 by norm_num]
    simp
    norm_num
  · rw [h2, show ((999 : ℕ) : ℝ) + 1e-6 = 999.000001 by norm_num]
    simp
    norm_num
  · rw [h3, show ((250 : ℕ) : ℝ) + 1e-6 = 250.000001 by norm_num]
    simp
    norm_num
  · rw [h4, show ((750 : ℕ) : ℝ) + 1e-6 = 750.000001 by norm_num]
    simp
    norm_num
  · rw [h5, show ((1 : ℕ) : ℝ) + 1e-6 = 1.000001 by norm_num]
    simp
    norm_num
  · rw [h6, show ((999 : ℕ) : ℝ) + 1e-6 = 999.000001 by norm_num]
    simp
    norm_num
  · rw [h7, show ((333 : ℕ) : ℝ) + 1e-6 = 333.000001 by norm_num]
    simp
    norm_num
  · rw [h8, show ((667 : ℕ) : ℝ) + 1e-6 = 667.000001 by norm_num]
    simp
    norm_num
  · rw [h9, show ((999 : ℕ) : ℝ) + 1e-6 = 999.000001 by norm_num]
    simp
    norm_num

/-- Concrete random-source state realising the amended C3 draw sequence:
raw outputs `e - 1` produce draws `e` under `1 + raw % 999`. -/
def s3 : RandomSource :=
  ⟨fun n => [499, 0, 998, 249, 749, 0, 998, 332, 666, 998].getD n 0, 0⟩

/-- C3 witness: the state `s3` yields exactly the amended draw sequence, and
the amended theorem applied to it at index `0` gives the expected value
within tolerance. -/
theorem C3_seeded_sequence_witness :
    draws s3 10 = [500, 1, 999, 250, 750, 1, 999, 333, 667, 999] ∧
      (0 : ℕ) < 10 ∧
      |(extract_features out0 s3).1 0 -
          [Real.log 500.000001, Real.log 1.000001, Real.log 999.000001,
            Real.log 250.000001, Real.log 750.000001, Real.log 1.000001,
            Real.log 999.000001, Real.log 333.000001, Real.log 667.000001,
            Real.log 999.000001].getD 0 0| ≤ 1e-5 :=
  ⟨by decide, by norm_num,
    C3_seeded_sequence out0 s3 (by decide) 0 (by norm_num)⟩

end LoRaNet
